import Mathlib

/-!
Shallow embedding of the spla-roulette application core (the most evolved
variant of `app.js`): the catalog cache with its static exclusion list, the
filter-selection staging machine (committed `selectedItems` versus pending
`tempFilterSelections`, dirty detection, apply/discard), the roulette draw
gated by `getAvailableItems`, the Fisher-Yates shuffle and the team division.
Randomness (`Math.random()`) is embedded as an explicit stream
`rand : Nat → Nat`: the call at loop index `i` draws `rand i % bound`, which
ranges over the same interval `[0, bound)` as `Math.floor(Math.random()*bound)`.
JavaScript exceptions are embedded as `Except String` / explicit `thrown`
fields.
-/

namespace SplaRoulette

/-- A catalog entry `{ key, name }` as fetched from the remote source. -/
structure Item where
  key : String
  name : String
deriving DecidableEq

/-- The global `data` object holding the three catalogs. -/
structure Data where
  rules : List Item
  stages : List Item
  weapons : List Item
deriving DecidableEq

/-- A per-catalog-type family of key arrays: the common shape of
`selectedItems` (committed) and `tempFilterSelections` (pending). -/
structure Selections where
  rule : List String
  stage : List String
  weapon : List String
deriving DecidableEq

/-- The filter staging state: the committed `selectedItems` and the pending
`tempFilterSelections` module-level variables. -/
structure FilterState where
  selectedItems : Selections
  tempFilterSelections : Selections
deriving DecidableEq

/-- The key arrays of the three catalogs, per type (`data.rules.map(item =>
item.key)` and so on, as computed at the top of `initializeFilters`). -/
def catalogKeys (d : Data) : Selections :=
  ⟨d.rules.map Item.key, d.stages.map Item.key, d.weapons.map Item.key⟩

/-- `initializeFilters`: committed selections default to all catalog keys;
when a cached selection was loaded, only cached keys that exist in the current
catalog are kept (`selectedItems[t].filter(key => cached[t].includes(key))`).
The pending selections are then a copy of the committed ones. -/
def initializeFilters (d : Data) (cached : Option Selections) : FilterState :=
  let base := catalogKeys d
  let sel : Selections :=
    match cached with
    | none => base
    | some c =>
      ⟨base.rule.filter fun k => c.rule.contains k,
       base.stage.filter fun k => c.stage.contains k,
       base.weapon.filter fun k => c.weapon.contains k⟩
  ⟨sel, sel⟩

/-- One type's clause of `checkFilterChanges`: the pending list counts as
changed when its length differs from the committed list's or some pending
key is missing from the committed list. -/
def filterListChanged (temp sel : List String) : Bool :=
  (temp.length != sel.length) || !(temp.all fun k => sel.contains k)

/-- `checkFilterChanges`: the dirty flag of the filter staging state (the
apply button is shown exactly when this is `true`). -/
def checkFilterChanges (st : FilterState) : Bool :=
  filterListChanged st.tempFilterSelections.rule st.selectedItems.rule
    || filterListChanged st.tempFilterSelections.stage st.selectedItems.stage
    || filterListChanged st.tempFilterSelections.weapon st.selectedItems.weapon

/-- `applyFilterSettings`, state part: the pending selections are copied
field by field into the committed ones (`selectedItems.rule =
[...tempFilterSelections.rule]` and so on). Persistence of the committed
value is modelled separately by `saveSelectedItems`. -/
def applyFilterSettings (st : FilterState) : FilterState :=
  { selectedItems := st.tempFilterSelections
    tempFilterSelections := st.tempFilterSelections }

/-- The discard of pending filter edits: `tempFilterSelections.rule =
[...selectedItems.rule]` and so on, as performed when the staging state is
re-seeded from the committed selections. -/
def discardFilterSettings (st : FilterState) : FilterState :=
  { st with tempFilterSelections := st.selectedItems }

/-- `selectedItems[type]` / `tempFilterSelections[type]`: property access on
a `Selections` object by type string; `none` models `undefined`. -/
def selectionsGet (sel : Selections) (type : String) : Option (List String) :=
  if type = "rule" then some sel.rule
  else if type = "stage" then some sel.stage
  else if type = "weapon" then some sel.weapon
  else none

/-- The `itemsMap[type]` lookup of `getAvailableItems`; `none` models
`undefined`. -/
def dataGet (d : Data) (type : String) : Option (List Item) :=
  if type = "rule" then some d.rules
  else if type = "stage" then some d.stages
  else if type = "weapon" then some d.weapons
  else none

/-- The TypeError message raised by `selectedItems[type].length` when
`selectedItems[type]` is `undefined`. -/
def unknownTypeError : String := "TypeError: selectedItems[type] is undefined"

/-- `getAvailableItems`: `itemsMap[type] || []`, then the empty-selection
fallback (`selectedItems[type].length === 0` returns the whole catalog) or
the filter by committed keys. Reading `.length` of `undefined` throws, which
the `Except` error embeds. -/
def getAvailableItems (d : Data) (sel : Selections) (type : String) :
    Except String (List Item) :=
  let items := (dataGet d type).getD []
  match selectionsGet sel type with
  | none => .error unknownTypeError
  | some s =>
    .ok (if s.length = 0 then items else items.filter fun it => s.contains it.key)

/-- `getTypeName`: the localized category name used in the refusal alert. -/
def getTypeName (type : String) : String :=
  if type = "rule" then "ルール"
  else if type = "stage" then "ステージ"
  else if type = "weapon" then "ブキ"
  else type

/-- `selectRandomItem(items)`: `null` for an empty pool, else the element at
index `Math.floor(Math.random() * items.length)`; the random index is
embedded as `r % items.length`. -/
def selectRandomItem (items : List Item) (r : Nat) : Option Item :=
  if items.length = 0 then none else items.get? (r % items.length)

/-- Assignment `currentResults[slot] = item` on the draw-result object,
embedded as an association list keyed by result slot. -/
def setResult (results : List (String × Item)) (slot : String) (it : Item) :
    List (String × Item) :=
  if results.any fun p => p.1 = slot then
    results.map fun p => if p.1 = slot then (slot, it) else p
  else results ++ [(slot, it)]

/-- `runRoulette(type)`: gate the draw on `getAvailableItems`; an empty pool
is refused with the alert `利用可能な<category>がありません` and the result
state untouched; rule/stage write one shared slot `common-<type>`, weapons
write one slot `<i>-weapon` per member index `i ∈ [1, memberCount]`, each
from an independent draw over the same pool. The returned pair is the
updated `currentResults` and the alert message, if any; a thrown TypeError
from `getAvailableItems` propagates as `.error`. -/
def runRoulette (d : Data) (sel : Selections) (memberCount : Nat)
    (rand : Nat → Nat) (results : List (String × Item)) (type : String) :
    Except String (List (String × Item) × Option String) :=
  match getAvailableItems d sel type with
  | .error e => .error e
  | .ok available =>
    if available.length = 0 then
      .ok (results, some ("利用可能な" ++ getTypeName type ++ "がありません"))
    else if type = "rule" || type = "stage" then
      match selectRandomItem available (rand 0) with
      | some it => .ok (setResult results ("common-" ++ type) it, none)
      | none => .ok (results, none)
    else
      .ok ((List.range memberCount).foldl
        (fun rs i =>
          match selectRandomItem available (rand (i + 1)) with
          | some it => setResult rs (toString (i + 1) ++ "-" ++ type) it
          | none => rs)
        results, none)

/-- `EXCLUDED_ITEMS.rule`: the static exclusion list for the Rule catalog. -/
def EXCLUDED_ITEMS_rule : List String := ["tricolor"]

/-- `EXCLUDED_ITEMS.stage`: the static exclusion list for the Stage catalog. -/
def EXCLUDED_ITEMS_stage : List String := ["grand_arena"]

/-- The cache key `spla-rules`. -/
def CACHE_KEYS_rule : String := "spla-rules"

/-- The cache key `spla-stages`. -/
def CACHE_KEYS_stage : String := "spla-stages"

/-- The cache key `spla-weapons`. -/
def CACHE_KEYS_weapon : String := "spla-weapons"

/-- The cache key `spla-selected-items`. -/
def CACHE_KEYS_selectedItems : String := "spla-selected-items"

/-- `localStorage` contents, embedded as an association list. -/
abbrev Store := List (String × String)

/-- A successful `localStorage.setItem`: overwrite or append the key. -/
def storeSet (store : Store) (k v : String) : Store :=
  if store.any fun p => p.1 = k then
    store.map fun p => if p.1 = k then (k, v) else p
  else store ++ [(k, v)]

/-- `localStorage.removeItem`. -/
def storeRemove (store : Store) (k : String) : Store :=
  store.filter fun p => p.1 ≠ k

/-- The serialization `JSON.stringify` of a catalog, embedded as the comma
joined key list (its exact shape is irrelevant to every claim). -/
def serializeItems (items : List Item) : String :=
  String.intercalate "," (items.map Item.key)

/-- The outcome of `fetchAndCacheData`: the global `data` after the run, the
store after the run and the exception propagated to the caller, if any. -/
structure FetchOutcome where
  data : Data
  store : Store
  thrown : Option String

/-- The message of a `localStorage.setItem` failure. -/
def quotaError : String := "QuotaExceededError"

/-- `fetchAndCacheData`, after the three fetches succeeded with the given raw
catalogs: the global `data` is set to the exclusion-filtered rules and
stages and the unfiltered weapons, then the three catalogs are written to
the store in order. `failSet k = true` means `setItem(k, ·)` throws; the
surrounding catch logs and rethrows, so the first failing write aborts the
remaining writes and propagates (`thrown`), the in-memory `data` staying
assigned. -/
def fetchAndCacheData (failSet : String → Bool) (store : Store)
    (rulesData stagesData weaponsData : List Item) : FetchOutcome :=
  let d : Data :=
    ⟨rulesData.filter fun it => !(EXCLUDED_ITEMS_rule.contains it.key),
     stagesData.filter fun it => !(EXCLUDED_ITEMS_stage.contains it.key),
     weaponsData⟩
  if failSet CACHE_KEYS_rule then ⟨d, store, some quotaError⟩
  else
    let s1 := storeSet store CACHE_KEYS_rule (serializeItems d.rules)
    if failSet CACHE_KEYS_stage then ⟨d, s1, some quotaError⟩
    else
      let s2 := storeSet s1 CACHE_KEYS_stage (serializeItems d.stages)
      if failSet CACHE_KEYS_weapon then ⟨d, s2, some quotaError⟩
      else ⟨d, storeSet s2 CACHE_KEYS_weapon (serializeItems d.weapons), none⟩

/-- The outcome of `refreshData`: data, store and the status message set by
its catch branch when `fetchAndCacheData` threw. -/
structure RefreshOutcome where
  data : Data
  store : Store
  status : Option String

/-- `refreshData`: clear the three catalog blobs and the selection blob, then
run `fetchAndCacheData`; its catch shows `更新に失敗しました` instead of
rethrowing. -/
def refreshData (failSet : String → Bool) (store : Store)
    (rulesData stagesData weaponsData : List Item) : RefreshOutcome :=
  let s0 := storeRemove (storeRemove (storeRemove (storeRemove store
    CACHE_KEYS_rule) CACHE_KEYS_stage) CACHE_KEYS_weapon) CACHE_KEYS_selectedItems
  let o := fetchAndCacheData failSet s0 rulesData stagesData weaponsData
  match o.thrown with
  | some _ => ⟨o.data, o.store, some "更新に失敗しました"⟩
  | none => ⟨o.data, o.store, none⟩

/-- `saveSelectedItems`: the selection-blob write, whose catch only logs —
on failure the store is left as it was and nothing propagates. -/
def saveSelectedItems (failSet : String → Bool) (store : Store)
    (sel : Selections) : Store :=
  if failSet CACHE_KEYS_selectedItems then store
  else storeSet store CACHE_KEYS_selectedItems
    (serializeItems (sel.rule.map fun k => ⟨k, k⟩))

/-- The destructuring swap `[a[i], a[j]] = [a[j], a[i]]` on an array,
embedded on lists: identity when either index is out of range (inside
`shuffleArray` both always are in range). -/
def listSwap {α : Type} (a : List α) (i j : Nat) : List α :=
  match a[i]?, a[j]? with
  | some x, some y => (a.set i y).set j x
  | _, _ => a

/-- The loop of `shuffleArray`: for `i` from `length - 1` down to `1`, pick
`j = Math.floor(Math.random() * (i + 1))` (embedded `rand i % (i + 1)`) and
swap positions `i` and `j`. -/
def fyLoop {α : Type} (rand : Nat → Nat) : Nat → List α → List α
  | 0, a => a
  | i + 1, a => fyLoop rand i (listSwap a (i + 1) (rand (i + 1) % (i + 2)))

/-- `shuffleArray`: Fisher-Yates on a copy (`[...array]`) of the input. -/
def shuffleArray {α : Type} (a : List α) (rand : Nat → Nat) : List α :=
  fyLoop rand (a.length - 1) a

/-- `divideTeams`, splitting part: shuffle the member names and split at
`Math.ceil(memberCount / 2)` — the first `⌈n/2⌉` names form team Alpha, the
rest team Bravo. -/
def divideTeams (members : List String) (rand : Nat → Nat) :
    List String × List String :=
  let shuffled := shuffleArray members rand
  let alphaSize := (members.length + 1) / 2
  (shuffled.take alphaSize, shuffled.drop alphaSize)

/-- `displayTeamResults`: rebuild `currentTeams` from the two name lists.
For each name of a team, the loop `for i = 1..memberCount` assigns the FIRST
index whose member name equals it (then breaks), with no check that the
index is still unassigned; `memberNames` is passed 1-indexed, embedded as a
list whose position `p` carries index `p + 1`. The result maps a member
index to `some "alpha"` / `some "bravo"` / `none` (unassigned). -/
def displayTeamResults (memberNames alphaTeam bravoTeam : List String) :
    Nat → Option String :=
  let assign := fun (teams : Nat → Option String) (team : String)
      (name : String) =>
    match memberNames.findIdx? fun n => n = name with
    | some idx => fun i => if i = idx + 1 then some team else teams i
    | none => teams
  let afterAlpha := alphaTeam.foldl (fun ts name => assign ts "alpha" name)
    fun _ => none
  bravoTeam.foldl (fun ts name => assign ts "bravo" name) afterAlpha

/-- A pending list never counts as changed against itself. -/
theorem filterListChanged_self (l : List String) : filterListChanged l l = false := by
  simp [filterListChanged, List.all_eq_true, List.elem_iff]

/-- C1: for every filter staging state, committing (`applyFilterSettings`,
which copies the pending selections into the committed ones) and then
evaluating the dirty flag (`checkFilterChanges`) yields false, and
discarding (resetting the pending selections to a copy of the committed
ones) and then evaluating the dirty flag also yields false. -/
theorem applyFilterSettings_discard_clear_dirty (st : FilterState) :
    checkFilterChanges (applyFilterSettings st) = false
      ∧ checkFilterChanges (discardFilterSettings st) = false := by
  constructor <;>
    simp [checkFilterChanges, applyFilterSettings, discardFilterSettings,
      filterListChanged_self]

/-- C2: `initializeFilters` sets the committed selections to the full
catalog key set when no stored selection exists, and otherwise to the
intersection of the stored keys with the current catalog's keys (stale keys
dropped); the pending selections are a copy of the committed ones, and both
are always subsets of the catalog's key set. -/
theorem initializeFilters_spec (d : Data) (c : Selections) (k : String) :
    (initializeFilters d none).selectedItems = catalogKeys d
      ∧ (initializeFilters d none).tempFilterSelections
          = (initializeFilters d none).selectedItems
      ∧ (initializeFilters d (some c)).tempFilterSelections
          = (initializeFilters d (some c)).selectedItems
      ∧ (k ∈ (initializeFilters d (some c)).selectedItems.rule
          ↔ k ∈ c.rule ∧ k ∈ (catalogKeys d).rule)
      ∧ (k ∈ (initializeFilters d (some c)).selectedItems.stage
          ↔ k ∈ c.stage ∧ k ∈ (catalogKeys d).stage)
      ∧ (k ∈ (initializeFilters d (some c)).selectedItems.weapon
          ↔ k ∈ c.weapon ∧ k ∈ (catalogKeys d).weapon)
      ∧ (initializeFilters d (some c)).selectedItems.rule ⊆ (catalogKeys d).rule
      ∧ (initializeFilters d (some c)).selectedItems.stage ⊆ (catalogKeys d).stage
      ∧ (initializeFilters d (some c)).selectedItems.weapon
          ⊆ (catalogKeys d).weapon := by
  refine ⟨rfl, rfl, rfl, ?_, ?_, ?_, ?_, ?_, ?_⟩ <;>
    simp [initializeFilters, List.mem_filter, List.elem_iff, and_comm]

/-- C3: for each of the three catalog types, `getAvailableItems` returns the
full current catalog when the committed selection is empty (empty means no
filter), and otherwise exactly the catalog items whose key is committed;
this single function is the gate every draw goes through. -/
theorem getAvailableItems_empty_means_all (d : Data) (sel : Selections) :
    getAvailableItems d sel "rule" =
        .ok (if sel.rule.length = 0 then d.rules
             else d.rules.filter fun it => sel.rule.contains it.key)
      ∧ getAvailableItems d sel "stage" =
          .ok (if sel.stage.length = 0 then d.stages
               else d.stages.filter fun it => sel.stage.contains it.key)
      ∧ getAvailableItems d sel "weapon" =
          .ok (if sel.weapon.length = 0 then d.weapons
               else d.weapons.filter fun it => sel.weapon.contains it.key) :=
  ⟨rfl, rfl, rfl⟩

/-- C4: for every fetched raw catalog, `fetchAndCacheData` never keeps a
Rule or Stage item whose key is on the static exclusion list for its type,
and the Weapon catalog passes through entirely unfiltered, whatever the
store and its failure behavior. -/
theorem fetchAndCacheData_excludes (failSet : String → Bool) (store : Store)
    (rulesData stagesData weaponsData : List Item) :
    ((fetchAndCacheData failSet store rulesData stagesData weaponsData).data.rules.all
        fun it => !(EXCLUDED_ITEMS_rule.contains it.key)) = true
      ∧ ((fetchAndCacheData failSet store rulesData stagesData weaponsData).data.stages.all
          fun it => !(EXCLUDED_ITEMS_stage.contains it.key)) = true
      ∧ (fetchAndCacheData failSet store rulesData stagesData weaponsData).data.weapons
          = weaponsData := by
  have hdata : (fetchAndCacheData failSet store rulesData stagesData weaponsData).data =
      ⟨rulesData.filter fun it => !(EXCLUDED_ITEMS_rule.contains it.key),
       stagesData.filter fun it => !(EXCLUDED_ITEMS_stage.contains it.key),
       weaponsData⟩ := by
    unfold fetchAndCacheData
    split <;> [rfl; (split <;> [rfl; (split <;> rfl)])]
  refine ⟨?_, ?_, ?_⟩ <;> rw [hdata] <;>
    first
      | rfl
      | exact List.all_eq_true.mpr fun x hx => (List.mem_filter.mp hx).2

/-- A concrete raw Rule catalog used as a test input. -/
def demoRules : List Item := [⟨"area", "ガチエリア"⟩, ⟨"hoko", "ガチホコバトル"⟩]

/-- A concrete raw Stage catalog used as a test input. -/
def demoStages : List Item := [⟨"yunohana", "ユノハナ大渓谷"⟩]

/-- A concrete raw Weapon catalog used as a test input. -/
def demoWeapons : List Item := [⟨"bold", "ボールドマーカー"⟩]

/-- A concrete `data` value used as a test input. -/
def demoData : Data := ⟨demoRules, demoStages, demoWeapons⟩

/-- Empty catalogs: the state before any load succeeded. -/
def emptyData : Data := ⟨[], [], []⟩

/-- Empty committed selections for all three types. -/
def emptySelections : Selections := ⟨[], [], []⟩

/-- C5: whenever the available-items pool of a type is empty, the draw is
refused: `runRoulette` leaves the draw-result state exactly as it was (no
shared slot, no per-member slot is written) and signals the blocking notice
naming the missing category. -/
theorem runRoulette_empty_pool_refused (d : Data) (sel : Selections)
    (memberCount : Nat) (rand : Nat → Nat) (results : List (String × Item))
    (type : String) (h : getAvailableItems d sel type = .ok []) :
    runRoulette d sel memberCount rand results type =
      .ok (results, some ("利用可能な" ++ getTypeName type ++ "がありません")) := by
  unfold runRoulette
  rw [h]
  rfl

/-- A draw over empty catalogs is refused with the rule-category notice and
an unchanged (empty) result state. -/
theorem runRoulette_empty_pool_refused_witness :
    runRoulette emptyData emptySelections 4 (fun _ => 0) [] "rule" =
      .ok ([], some ("利用可能な" ++ getTypeName "rule" ++ "がありません")) :=
  runRoulette_empty_pool_refused emptyData emptySelections 4 (fun _ => 0) [] "rule" rfl

/-- C9 counterexample: when every store write fails, the persistence failure
is NOT swallowed: `fetchAndCacheData` rethrows it to its caller, and
`refreshData` therefore ends in its failure branch (status
`更新に失敗しました`) instead of succeeding. -/
theorem fetchAndCacheData_persist_failure_propagates :
    (fetchAndCacheData (fun _ => true) [] demoRules demoStages demoWeapons).thrown
        = some quotaError
      ∧ (refreshData (fun _ => true) [] demoRules demoStages demoWeapons).status
        = some "更新に失敗しました" :=
  ⟨rfl, rfl⟩

/-- C9 amended: during refresh the in-memory catalogs are always set to the
filtered fetch results, but a catalog store-write failure is logged and then
propagated to the caller — `fetchAndCacheData` throws exactly when one of
the three catalog writes fails, rather than succeeding best-effort. -/
theorem fetchAndCacheData_persistence_not_best_effort (failSet : String → Bool)
    (store : Store) (rulesData stagesData weaponsData : List Item) :
    (fetchAndCacheData failSet store rulesData stagesData weaponsData).data =
        ⟨rulesData.filter fun it => !(EXCLUDED_ITEMS_rule.contains it.key),
         stagesData.filter fun it => !(EXCLUDED_ITEMS_stage.contains it.key),
         weaponsData⟩
      ∧ ((fetchAndCacheData failSet store rulesData stagesData weaponsData).thrown = none
          ↔ (failSet CACHE_KEYS_rule || failSet CACHE_KEYS_stage
              || failSet CACHE_KEYS_weapon) = false) := by
  unfold fetchAndCacheData
  cases h1 : failSet CACHE_KEYS_rule <;> cases h2 : failSet CACHE_KEYS_stage <;>
    cases h3 : failSet CACHE_KEYS_weapon <;> simp [h1, h2, h3]

/-- C10 counterexample: for the unknown type `"foo"`, `getAvailableItems`
does not return the empty sequence — it throws (the TypeError from reading
`selectedItems["foo"].length`), so no `.ok` value exists at all. -/
theorem getAvailableItems_unknown_type_throws :
    getAvailableItems demoData emptySelections "foo" = .error unknownTypeError
      ∧ (getAvailableItems demoData emptySelections "foo").toOption = none :=
  ⟨rfl, rfl⟩

/-- C10 amended: for every catalog-type argument that is not rule, stage or
weapon, `getAvailableItems` throws the TypeError of reading `.length` of
`undefined`, and a draw requested for such a type crashes with that same
exception before reaching the empty-pool refusal branch. -/
theorem getAvailableItems_unknown_type_amended (d : Data) (sel : Selections)
    (memberCount : Nat) (rand : Nat → Nat) (results : List (String × Item))
    (type : String) (h1 : type ≠ "rule") (h2 : type ≠ "stage")
    (h3 : type ≠ "weapon") :
    getAvailableItems d sel type = .error unknownTypeError
      ∧ runRoulette d sel memberCount rand results type = .error unknownTypeError := by
  have hs : selectionsGet sel type = none := by simp [selectionsGet, h1, h2, h3]
  have hg : getAvailableItems d sel type = .error unknownTypeError := by
    unfold getAvailableItems
    rw [hs]
  exact ⟨hg, by unfold runRoulette; rw [hg]⟩

/-- A draw for the concrete unknown type `"foo"` crashes with the TypeError
rather than being refused. -/
theorem getAvailableItems_unknown_type_amended_witness :
    getAvailableItems demoData emptySelections "foo" = .error unknownTypeError
      ∧ runRoulette demoData emptySelections 2 (fun _ => 0) [] "foo"
          = .error unknownTypeError :=
  getAvailableItems_unknown_type_amended demoData emptySelections 2 (fun _ => 0) []
    "foo" (by decide) (by decide) (by decide)

/-- Setting position `m` of `t` to `x` while moving the value `y` it held to
the front permutes prepending `x` to `t`. -/
theorem cons_set_perm {α : Type} (x : α) :
    ∀ (t : List α) (m : Nat) (y : α), t[m]? = some y →
      List.Perm (y :: t.set m x) (x :: t)
  | [], m, y, h => by simp at h
  | c :: t, 0, y, h => by
    rw [List.getElem?_cons_zero, Option.some_inj] at h
    rw [List.set_cons_zero, ← h]
    exact List.Perm.swap x c t
  | c :: t, m + 1, y, h => by
    rw [List.getElem?_cons_succ] at h
    have ih := cons_set_perm x t m y h
    rw [List.set_cons_succ]
    have step1 : List.Perm (y :: c :: t.set m x) (c :: y :: t.set m x) :=
      List.Perm.swap c y _
    have step2 : List.Perm (c :: y :: t.set m x) (c :: (x :: t)) :=
      List.Perm.cons c ih
    have step3 : List.Perm (c :: x :: t) (x :: c :: t) := List.Perm.swap x c t
    exact (step1.trans step2).trans step3

/-- A swap of two positions is a permutation. -/
theorem listSwap_perm {α : Type} :
    ∀ (a : List α) (i j : Nat), List.Perm (listSwap a i j) a
  | [], _, _ => by simp [listSwap]
  | h :: t, 0, 0 => by simp [listSwap]
  | h :: t, 0, m + 1 => by
    cases hy : t[m]? with
    | none => simp [listSwap, hy]
    | some y =>
      simp only [listSwap, List.getElem?_cons_zero, List.getElem?_cons_succ, hy,
        List.set_cons_zero, List.set_cons_succ]
      exact cons_set_perm h t m y hy
  | h :: t, n + 1, 0 => by
    cases hx : t[n]? with
    | none => simp [listSwap, hx]
    | some x =>
      simp only [listSwap, List.getElem?_cons_zero, List.getElem?_cons_succ, hx,
        List.set_cons_zero, List.set_cons_succ]
      exact cons_set_perm h t n x hx
  | h :: t, n + 1, m + 1 => by
    cases hx : t[n]? with
    | none => simp [listSwap, hx]
    | some x =>
      cases hy : t[m]? with
      | none => simp [listSwap, hx, hy]
      | some y =>
        have hsw : listSwap t n m = (t.set n y).set m x := by
          simp [listSwap, hx, hy]
        simp only [listSwap, List.getElem?_cons_succ, hx, hy, List.set_cons_succ]
        rw [← hsw]
        exact List.Perm.cons h (listSwap_perm t n m)

/-- Every pass of the Fisher-Yates loop permutes its input. -/
theorem fyLoop_perm {α : Type} (rand : Nat → Nat) :
    ∀ (i : Nat) (a : List α), List.Perm (fyLoop rand i a) a
  | 0, a => List.Perm.refl a
  | i + 1, a =>
    (fyLoop_perm rand i _).trans (listSwap_perm a (i + 1) (rand (i + 1) % (i + 2)))

/-- `shuffleArray` permutes its input. -/
theorem shuffleArray_perm {α : Type} (a : List α) (rand : Nat → Nat) :
    List.Perm (shuffleArray a rand) a :=
  fyLoop_perm rand (a.length - 1) a

/-- C8: for every input sequence and random stream, `shuffleArray` — the
Fisher-Yates procedure swapping position `i` with a random `j ∈ [0, i]` for
`i` from `length - 1` down to `1`, on a copy of the input, which the pure
embedding leaves untouched — returns a permutation of the input: the same
multiset of elements and the same length. -/
theorem shuffleArray_is_permutation {α : Type} (a : List α) (rand : Nat → Nat) :
    List.Perm (shuffleArray a rand) a
      ∧ (shuffleArray a rand).length = a.length :=
  ⟨shuffleArray_perm a rand, (shuffleArray_perm a rand).length_eq⟩

/-- C6: `divideTeams` on `n` members puts exactly `⌈n/2⌉` shuffled members
into team Alpha and the remaining `n - ⌈n/2⌉` into team Bravo, the two teams
together being a permutation of the input (no duplicates, no omissions);
for a single member, Alpha gets that member and Bravo is empty. -/
theorem divideTeams_spec (members : List String) (rand : Nat → Nat) (m : String) :
    (divideTeams members rand).1.length = (members.length + 1) / 2
      ∧ (divideTeams members rand).2.length
          = members.length - (members.length + 1) / 2
      ∧ List.Perm ((divideTeams members rand).1 ++ (divideTeams members rand).2)
          members
      ∧ divideTeams [m] rand = ([m], []) := by
  have hlen : (shuffleArray members rand).length = members.length :=
    (shuffleArray_perm members rand).length_eq
  refine ⟨?_, ?_, ?_, by simp [divideTeams, shuffleArray, fyLoop]⟩
  · simp only [divideTeams, List.length_take, hlen]
    omega
  · simp only [divideTeams, List.length_drop, hlen]
  · simp only [divideTeams, List.take_append_drop]
    exact shuffleArray_perm members rand

/-- C7 (failing run): with two members both named `X`, whatever the random
stream, `divideTeams` splits into Alpha = `["X"]`, Bravo = `["X"]`, and
`displayTeamResults` resolves BOTH occurrences to member index 1 — the alpha
assignment of index 1 is overwritten by the bravo one and index 2 is left
with no team at all, contradicting one-assignment-per-index. -/
theorem displayTeamResults_duplicate_name_misassigns (rand : Nat → Nat) :
    displayTeamResults ["X", "X"] (divideTeams ["X", "X"] rand).1
        (divideTeams ["X", "X"] rand).2 1 = some "bravo"
      ∧ displayTeamResults ["X", "X"] (divideTeams ["X", "X"] rand).1
          (divideTeams ["X", "X"] rand).2 2 = none := by
  have hshuf : shuffleArray ["X", "X"] rand = ["X", "X"] := by
    rcases Nat.mod_two_eq_zero_or_one (rand 1) with h | h <;>
      simp [shuffleArray, fyLoop, listSwap, h]
  have hdiv : divideTeams ["X", "X"] rand = (["X"], ["X"]) := by
    simp [divideTeams, hshuf]
  rw [hdiv]
  exact ⟨rfl, rfl⟩

end SplaRoulette
